import Mathlib

/-!
# BudgetTracker (`financeapp.py`) — verification of the data pipeline

Shallow embedding of the single-file finance tracker: a SQLite-backed
transaction store (`add_transaction`, `delete_transaction`), the pandas
date-range mask (lines 121-132), the totals (lines 148-153), the expense
category breakdown (line 172), and the `pd.Grouper` resampling with the
frequency map `{"Daily": "D", "Weekly": "W", "Monthly": "ME"}`
(lines 195-200).

Modelling choices, all taken from the source:
* Calendar dates are `(year, month, day)` triples of integers; the pandas
  datetime order on date-only timestamps is the lexicographic order.
* Monetary amounts are integer centavos: the entry widget
  `st.sidebar.number_input("Amount", min_value=0.01, format="%.2f")`
  fixes two-decimal currency, so `0.01` is the unit and `min_value=0.01`
  is `1 ≤ amount` in centavos.
* The store is the list of rows of the `transactions` table plus the
  `AUTOINCREMENT` sequence counter (SQLite never reuses an id).
* `pd.Grouper(freq=...)` with `'D'`/`'W'`/`'ME'` buckets a date-only
  timestamp by, respectively, the date itself, the first Sunday on or
  after it (pandas `'W'` is `'W-SUN'`, right-closed, right-labelled),
  and the last day of its calendar month (`'ME'`, month-end).  Weekly
  keys are expressed in days since 1970-01-01 (a Thursday; day 3,
  1970-01-04, is a Sunday).
-/

/-- A calendar date, as entered through `st.sidebar.date_input`. -/
structure Date where
  year : Int
  month : Int
  day : Int
deriving DecidableEq, Repr

/-- Lexicographic comparison of dates: the order pandas puts on the
`datetime64` column built by `pd.to_datetime(df['date'])` for date-only
values. -/
def Date.leB (a b : Date) : Bool :=
  decide (a.year < b.year ∨ (a.year = b.year ∧
    (a.month < b.month ∨ (a.month = b.month ∧ a.day ≤ b.day))))

/-- Gregorian leap-year rule. -/
def isLeap (y : Int) : Bool :=
  (y % 4 == 0 && y % 100 != 0) || (y % 400 == 0)

/-- Number of days in month `m` of year `y`. -/
def daysInMonth (y m : Int) : Int :=
  if m = 2 then (if isLeap y then 29 else 28)
  else if m = 4 ∨ m = 6 ∨ m = 9 ∨ m = 11 then 30 else 31

/-- A date that actually denotes a calendar day. -/
abbrev ValidDate (d : Date) : Prop :=
  1 ≤ d.month ∧ d.month ≤ 12 ∧ 1 ≤ d.day ∧ d.day ≤ daysInMonth d.year d.month

/-- Days since 1970-01-01 of a civil date (standard civil-from-days
inverse algorithm, specialised to floor division, which is what `/` and
`%` on `Int` provide for a positive divisor). -/
def Date.toDays (d : Date) : Int :=
  let y : Int := if d.month ≤ 2 then d.year - 1 else d.year
  let era : Int := y / 400
  let yoe : Int := y - era * 400
  let mp : Int := if 2 < d.month then d.month - 3 else d.month + 9
  let doy : Int := (153 * mp + 2) / 5 + d.day - 1
  let doe : Int := yoe * 365 + yoe / 4 - yoe / 100 + doy
  era * 146097 + doe - 719468

/-- Bucket label assigned by `pd.Grouper(freq='W')` (= `'W-SUN'`,
right-closed and right-labelled) to the timestamp lying `n` days after
1970-01-01: the first Sunday on or after it.  Day 3 (1970-01-04) is a
Sunday, so Sundays are exactly the days `≡ 3 (mod 7)`. -/
def weeklyKeyDays (n : Int) : Int :=
  n + (3 - n) % 7

/-- Bucket label assigned by `pd.Grouper(freq='ME')` (month-end): the
last day of the date's calendar month. -/
def monthEnd (d : Date) : Date :=
  ⟨d.year, d.month, daysInMonth d.year d.month⟩

/-- One row of the `transactions` table. -/
structure Transaction where
  id : Int
  date : Date
  kind : String
  category : String
  amount : Int
  notes : String
deriving DecidableEq, Repr

/-- The persistent state: the rows of the `transactions` table together
with the `AUTOINCREMENT` sequence (next id to assign; never reused). -/
structure Store where
  txs : List Transaction
  nextId : Int
deriving DecidableEq, Repr

/-- `add_transaction` (lines 27-33): unconditionally inserts one row;
SQLite assigns the next id from the `AUTOINCREMENT` sequence. -/
def add_transaction (s : Store) (date : Date) (kind category : String)
    (amount : Int) (notes : String) : Store × Int :=
  ({ txs := s.txs ++ [⟨s.nextId, date, kind, category, amount, notes⟩]
   , nextId := s.nextId + 1 }, s.nextId)

/-- Result of an add request submitted through the sidebar form. -/
inductive AddResult
  | ok (s : Store) (id : Int)
  | validationError
deriving DecidableEq, Repr

/-- The add path as a whole (lines 59-72): the entry form admits the
request only when the amount clears `min_value=0.01` (i.e. one centavo)
and the kind is one of the radio options `["Expense", "Income"]`; a
value outside those bounds is refused inline and no row is inserted.
An admitted request is passed to `add_transaction`. -/
def add_entry (s : Store) (date : Date) (kind category : String)
    (amount : Int) (notes : String) : AddResult :=
  if 1 ≤ amount ∧ (kind = "Income" ∨ kind = "Expense") then
    let r := add_transaction s date kind category amount notes
    .ok r.1 r.2
  else .validationError

/-- `delete_transaction` (lines 35-40): `DELETE FROM transactions WHERE
id = ?`.  The `AUTOINCREMENT` sequence is untouched. -/
def delete_transaction (s : Store) (i : Int) : Store :=
  { s with txs := s.txs.filter (fun t => decide (t.id ≠ i)) }

/-- The boolean mask of line 129: `(df['date'] >= start_date) &
(df['date'] <= end_date)`. -/
def mask (s e : Date) (t : Transaction) : Bool :=
  Date.leB s t.date && Date.leB t.date e

/-- `df.loc[mask]` (line 130): keep the rows the mask selects. -/
def apply_mask (s e : Date) (txs : List Transaction) : List Transaction :=
  txs.filter (mask s e)

/-- The filter dispatch of lines 122-132: the date widget yields a tuple
of one or two dates; only a complete pair is used as a range, anything
else falls back to the unfiltered frame. -/
def filtered_df (range : List Date) (txs : List Transaction) :
    List Transaction :=
  match range with
  | [s, e] => apply_mask s e txs
  | _ => txs

/-- `filtered_df[filtered_df['type'] == "Income"]` (line 148). -/
def income_df (txs : List Transaction) : List Transaction :=
  txs.filter (fun t => decide (t.kind = "Income"))

/-- `filtered_df[filtered_df['type'] == "Expense"]` (line 149). -/
def expense_df (txs : List Transaction) : List Transaction :=
  txs.filter (fun t => decide (t.kind = "Expense"))

/-- `income_df['amount'].sum()` (line 151). -/
def total_income (txs : List Transaction) : Int :=
  ((income_df txs).map Transaction.amount).sum

/-- `expense_df['amount'].sum()` (line 152). -/
def total_expense (txs : List Transaction) : Int :=
  ((expense_df txs).map Transaction.amount).sum

/-- `remaining_budget = total_income - total_expense` (line 153). -/
def remaining_budget (txs : List Transaction) : Int :=
  total_income txs - total_expense txs

/-- The `groupby(key)['amount'].sum()` idiom shared by line 172 and
line 200: one output row per distinct key value that occurs, carrying
the sum of `amount` over the rows with that key. -/
def groupSum {κ : Type} [DecidableEq κ] (key : Transaction → κ)
    (txs : List Transaction) : List (κ × Int) :=
  ((txs.map key).dedup).map
    (fun k => (k, ((txs.filter (fun t => decide (key t = k))).map
      Transaction.amount).sum))

/-- `expense_df.groupby("category")["amount"].sum()` (line 172). -/
def expense_by_cat (txs : List Transaction) : List (String × Int) :=
  groupSum Transaction.category (expense_df txs)

/-- Line 200 with `freq='D'`: group by (calendar day, type). -/
def resampled_df_daily (txs : List Transaction) :
    List ((Date × String) × Int) :=
  groupSum (fun t => (t.date, t.kind)) txs

/-- Line 200 with `freq='W'`: group by (Sunday-ending week, type); the
bucket key is expressed in days since 1970-01-01. -/
def resampled_df_weekly (txs : List Transaction) :
    List ((Int × String) × Int) :=
  groupSum (fun t => (weeklyKeyDays t.date.toDays, t.kind)) txs

/-- Line 200 with `freq='ME'`: group by (month-end date, type). -/
def resampled_df_monthly (txs : List Transaction) :
    List ((Date × String) × Int) :=
  groupSum (fun t => (monthEnd t.date, t.kind)) txs

/-! ## Helper lemmas -/

theorem sum_filter_add_sum_filter_not {α : Type} (p : α → Bool) (f : α → Int)
    (l : List α) :
    ((l.filter p).map f).sum + ((l.filter (fun a => !p a)).map f).sum
      = (l.map f).sum := by
  induction l with
  | nil => rfl
  | cons a l ih => cases h : p a <;> simp [List.filter_cons, h] <;> omega

theorem sum_map_filter_eq {α : Type} (p : α → Bool) (f : α → Int)
    (l : List α) :
    ((l.filter p).map f).sum
      = (l.map (fun a => if p a then f a else 0)).sum := by
  induction l with
  | nil => rfl
  | cons a l ih => cases h : p a <;> simp [List.filter_cons, h, ih]

theorem sum_over_keys {κ : Type} [DecidableEq κ] (key : Transaction → κ) :
    ∀ ks : List κ, ks.Nodup → ∀ l : List Transaction,
      (∀ t ∈ l, key t ∈ ks) →
      (ks.map (fun k => ((l.filter (fun t => decide (key t = k))).map
        Transaction.amount).sum)).sum = (l.map Transaction.amount).sum := by
  intro ks
  induction ks with
  | nil =>
    intro _ l hcov
    cases l with
    | nil => rfl
    | cons t l => exact absurd (hcov t (List.mem_cons_self t l)) (List.not_mem_nil _)
  | cons k ks ih =>
    intro hnd l hcov
    have hk : k ∉ ks := (List.nodup_cons.mp hnd).1
    have hnd' : ks.Nodup := (List.nodup_cons.mp hnd).2
    have hcov2 : ∀ t ∈ l.filter (fun t => !decide (key t = k)), key t ∈ ks := by
      intro t ht
      have hm := List.mem_filter.mp ht
      have hne : key t ≠ k := by simpa using hm.2
      rcases List.mem_cons.mp (hcov t hm.1) with h | h
      · exact absurd h hne
      · exact h
    have hmapeq : ks.map (fun k' => ((l.filter (fun t =>
          decide (key t = k'))).map Transaction.amount).sum)
        = ks.map (fun k' => (((l.filter (fun t => !decide (key t = k))).filter
          (fun t => decide (key t = k'))).map Transaction.amount).sum) := by
      apply List.map_congr_left
      intro k' hk'
      have hkk' : k' ≠ k := fun h => hk (h ▸ hk')
      have hfil : (l.filter (fun t => !decide (key t = k))).filter
          (fun t => decide (key t = k'))
          = l.filter (fun t => decide (key t = k')) := by
        rw [List.filter_filter]
        apply List.filter_congr
        intro t _
        by_cases h : key t = k'
        · simp [h, hkk']
        · simp [h]
      rw [hfil]
    rw [List.map_cons, List.sum_cons, hmapeq,
      ih hnd' (l.filter (fun t => !decide (key t = k))) hcov2]
    exact sum_filter_add_sum_filter_not (fun t => decide (key t = k))
      Transaction.amount l

theorem groupSum_keys {κ : Type} [DecidableEq κ] (key : Transaction → κ)
    (txs : List Transaction) :
    (groupSum key txs).map Prod.fst = (txs.map key).dedup := by
  unfold groupSum
  rw [List.map_map]
  exact List.map_id _

theorem groupSum_nodup_keys {κ : Type} [DecidableEq κ] (key : Transaction → κ)
    (txs : List Transaction) :
    ((groupSum key txs).map Prod.fst).Nodup := by
  rw [groupSum_keys]; exact List.nodup_dedup _

theorem groupSum_mem_keys {κ : Type} [DecidableEq κ] (key : Transaction → κ)
    (txs : List Transaction) (k : κ) :
    k ∈ (groupSum key txs).map Prod.fst ↔ ∃ t ∈ txs, key t = k := by
  rw [groupSum_keys]
  simp [List.mem_dedup, List.mem_map]

theorem groupSum_val {κ : Type} [DecidableEq κ] (key : Transaction → κ)
    (txs : List Transaction) :
    ∀ e ∈ groupSum key txs,
      e.2 = ((txs.filter (fun t => decide (key t = e.1))).map
        Transaction.amount).sum := by
  intro e he
  simp only [groupSum, List.mem_map] at he
  obtain ⟨k, _, rfl⟩ := he
  rfl

theorem groupSum_sum {κ : Type} [DecidableEq κ] (key : Transaction → κ)
    (txs : List Transaction) :
    ((groupSum key txs).map Prod.snd).sum = (txs.map Transaction.amount).sum := by
  have h : (groupSum key txs).map Prod.snd
      = ((txs.map key).dedup).map (fun k => ((txs.filter (fun t =>
          decide (key t = k))).map Transaction.amount).sum) := by
    simp [groupSum, List.map_map, Function.comp]
  rw [h]
  exact sum_over_keys key ((txs.map key).dedup) (List.nodup_dedup _) txs
    (fun t ht => List.mem_dedup.mpr (List.mem_map_of_mem key ht))

theorem leB_refl (d : Date) : Date.leB d d = true := by
  simp [Date.leB]

theorem leB_antisymm (a b : Date) :
    (Date.leB a b = true ∧ Date.leB b a = true) ↔ a = b := by
  cases a; cases b
  simp only [Date.leB, decide_eq_true_eq, Date.mk.injEq]
  omega

theorem daysInMonth_pos (y m : Int) : 1 ≤ daysInMonth y m := by
  unfold daysInMonth
  split
  · split <;> omega
  · split <;> omega

theorem monthEnd_inj (d d' : Date) :
    monthEnd d = monthEnd d' ↔ d.year = d'.year ∧ d.month = d'.month := by
  cases d; cases d'
  simp only [monthEnd, Date.mk.injEq]
  constructor
  · rintro ⟨h1, h2, _⟩; exact ⟨h1, h2⟩
  · rintro ⟨rfl, rfl⟩; exact ⟨rfl, rfl, rfl⟩

theorem monthEnd_eq_iff (d b : Date) (hb : ∃ d', b = monthEnd d') :
    monthEnd d = b ↔ d.year = b.year ∧ d.month = b.month := by
  obtain ⟨d', rfl⟩ := hb
  rw [monthEnd_inj]
  exact Iff.rfl

/-! ## Claims -/

/-- C1: an add request fails with a validation error exactly when the
amount is not positive or the kind is not Income/Expense, and then no
row is inserted; otherwise exactly one new row is appended to the table
and its freshly assigned auto-increment id is returned. -/
theorem add_entry_validates (s : Store) (date : Date) (kind category : String)
    (amount : Int) (notes : String) :
    (add_entry s date kind category amount notes = .validationError
      ↔ (amount ≤ 0 ∨ (kind ≠ "Income" ∧ kind ≠ "Expense")))
    ∧ (0 < amount → (kind = "Income" ∨ kind = "Expense") →
        add_entry s date kind category amount notes
          = .ok { txs := s.txs ++ [⟨s.nextId, date, kind, category, amount, notes⟩]
                , nextId := s.nextId + 1 } s.nextId) := by
  constructor
  · by_cases h : 1 ≤ amount ∧ (kind = "Income" ∨ kind = "Expense")
    · unfold add_entry
      rw [if_pos h]
      constructor
      · intro hc
        exact absurd hc (by simp)
      · rintro (hc | ⟨hi, he⟩)
        · exact absurd h.1 (by omega)
        · rcases h.2 with h2 | h2
          · exact absurd h2 hi
          · exact absurd h2 he
    · unfold add_entry
      rw [if_neg h]
      constructor
      · intro _
        by_cases ha : 1 ≤ amount
        · right
          constructor
          · intro hk
            exact h ⟨ha, Or.inl hk⟩
          · intro hk
            exact h ⟨ha, Or.inr hk⟩
        · left
          omega
      · intro _
        rfl
  · intro h1 h2
    unfold add_entry
    rw [if_pos ⟨by omega, h2⟩]
    rfl

/-- C1 witness: an amount of zero is rejected, and a valid request
appends one row with the next id. -/
theorem add_entry_validates_witness :
    add_entry ⟨[], 1⟩ ⟨2024, 1, 5⟩ "Income" "Salary" 0 "" = .validationError
    ∧ add_entry ⟨[], 1⟩ ⟨2024, 1, 5⟩ "Income" "Salary" 100000 ""
      = .ok ⟨[⟨1, ⟨2024, 1, 5⟩, "Income", "Salary", 100000, ""⟩], 2⟩ 1 :=
  ⟨(add_entry_validates ⟨[], 1⟩ ⟨2024, 1, 5⟩ "Income" "Salary" 0 "").1.mpr
      (Or.inl (by norm_num)),
   (add_entry_validates ⟨[], 1⟩ ⟨2024, 1, 5⟩ "Income" "Salary" 100000 "").2
      (by norm_num) (Or.inl rfl)⟩

/-- C2: for a well-ordered range, the date mask keeps exactly the rows
whose date lies inclusively between the bounds, and a degenerate range
`(d, d)` keeps exactly the rows dated `d`. -/
theorem apply_mask_range (txs : List Transaction) (s e : Date)
    (_hse : Date.leB s e = true) :
    (∀ t, t ∈ apply_mask s e txs
      ↔ t ∈ txs ∧ Date.leB s t.date = true ∧ Date.leB t.date e = true)
    ∧ ∀ (d : Date) (t : Transaction),
        t ∈ apply_mask d d txs ↔ t ∈ txs ∧ t.date = d := by
  constructor
  · intro t
    simp [apply_mask, mask, List.mem_filter, Bool.and_eq_true]
  · intro d t
    rw [apply_mask]
    simp only [List.mem_filter, mask, Bool.and_eq_true]
    constructor
    · rintro ⟨ht, h1, h2⟩
      exact ⟨ht, ((leB_antisymm d t.date).mp ⟨h1, h2⟩).symm⟩
    · rintro ⟨ht, rfl⟩
      exact ⟨ht, leB_refl _, leB_refl _⟩

/-- C2 witness: a January transaction passes a January range filter. -/
theorem apply_mask_range_witness :
    (⟨1, ⟨2024, 1, 5⟩, "Expense", "Food", 5000, ""⟩ : Transaction)
      ∈ apply_mask ⟨2024, 1, 1⟩ ⟨2024, 1, 31⟩
        [⟨1, ⟨2024, 1, 5⟩, "Expense", "Food", 5000, ""⟩] :=
  ((apply_mask_range [⟨1, ⟨2024, 1, 5⟩, "Expense", "Food", 5000, ""⟩]
      ⟨2024, 1, 1⟩ ⟨2024, 1, 31⟩ (by decide)).1 _).mpr
    ⟨List.mem_singleton_self _, by decide, by decide⟩

/-- C3: the income and expense totals are the kind-wise sums of the
amounts, and the net is exactly their difference. -/
theorem totals_spec (txs : List Transaction) :
    total_income txs
      = (txs.map (fun t => if t.kind = "Income" then t.amount else 0)).sum
    ∧ total_expense txs
      = (txs.map (fun t => if t.kind = "Expense" then t.amount else 0)).sum
    ∧ remaining_budget txs = total_income txs - total_expense txs := by
  refine ⟨?_, ?_, rfl⟩
  · rw [total_income, income_df, sum_map_filter_eq]
    refine congrArg List.sum (List.map_congr_left ?_)
    intro t _
    by_cases h : t.kind = "Income" <;> simp [h]
  · rw [total_expense, expense_df, sum_map_filter_eq]
    refine congrArg List.sum (List.map_congr_left ?_)
    intro t _
    by_cases h : t.kind = "Expense" <;> simp [h]

/-- C4: aggregating the empty collection yields zero totals and an empty
breakdown, and a range that excludes every row filters the collection
down to empty, on which the aggregations again yield zeros. -/
theorem empty_aggregation (txs : List Transaction) (s e : Date)
    (h : ∀ t ∈ txs, mask s e t = false) :
    (total_income [] = 0 ∧ total_expense [] = 0 ∧ remaining_budget [] = 0
      ∧ expense_by_cat [] = [])
    ∧ (apply_mask s e txs = []
      ∧ total_income (apply_mask s e txs) = 0
      ∧ total_expense (apply_mask s e txs) = 0
      ∧ remaining_budget (apply_mask s e txs) = 0
      ∧ expense_by_cat (apply_mask s e txs) = []) := by
  have hnil : apply_mask s e txs = [] := by
    rw [apply_mask]
    exact List.filter_eq_nil_iff.mpr (fun t ht => by simp [h t ht])
  refine ⟨⟨rfl, rfl, rfl, rfl⟩, hnil, ?_, ?_, ?_, ?_⟩ <;> rw [hnil] <;> rfl

/-- C4 witness: a 2023 range excludes a 2024 transaction. -/
theorem empty_aggregation_witness :
    apply_mask ⟨2023, 1, 1⟩ ⟨2023, 1, 1⟩
      [⟨1, ⟨2024, 1, 5⟩, "Expense", "Food", 5000, ""⟩] = [] :=
  (empty_aggregation [⟨1, ⟨2024, 1, 5⟩, "Expense", "Food", 5000, ""⟩]
    ⟨2023, 1, 1⟩ ⟨2023, 1, 1⟩ (by decide)).2.1

/-- C5: deletion keeps exactly the rows with a different id, is the
identity when no row carries the id, and is idempotent. -/
theorem delete_transaction_spec (s : Store) (i : Int) :
    (∀ t, t ∈ (delete_transaction s i).txs ↔ t ∈ s.txs ∧ t.id ≠ i)
    ∧ ((∀ t ∈ s.txs, t.id ≠ i) → delete_transaction s i = s)
    ∧ delete_transaction (delete_transaction s i) i
        = delete_transaction s i := by
  refine ⟨?_, ?_, ?_⟩
  · intro t
    simp [delete_transaction, List.mem_filter]
  · intro h
    unfold delete_transaction
    have hf : s.txs.filter (fun t => decide (t.id ≠ i)) = s.txs :=
      List.filter_eq_self.mpr (fun t ht => by simpa using h t ht)
    rw [hf]
  · unfold delete_transaction
    have hf : (s.txs.filter (fun t => decide (t.id ≠ i))).filter
        (fun t => decide (t.id ≠ i)) = s.txs.filter (fun t => decide (t.id ≠ i)) :=
      List.filter_eq_self.mpr (fun t ht => (List.mem_filter.mp ht).2)
    rw [hf]

/-- C5 witness: deleting an absent id leaves the store unchanged. -/
theorem delete_transaction_spec_witness :
    delete_transaction ⟨[⟨1, ⟨2024, 1, 5⟩, "Expense", "Food", 5000, ""⟩], 2⟩ 7
      = ⟨[⟨1, ⟨2024, 1, 5⟩, "Expense", "Food", 5000, ""⟩], 2⟩ :=
  (delete_transaction_spec ⟨[⟨1, ⟨2024, 1, 5⟩, "Expense", "Food", 5000, ""⟩], 2⟩
    7).2.1 (by decide)

/-- C9: a range tuple that is not a complete pair of dates leaves the
frame unfiltered. -/
theorem filtered_df_incomplete_range (range : List Date)
    (txs : List Transaction) (h : range.length ≠ 2) :
    filtered_df range txs = txs := by
  cases range with
  | nil => rfl
  | cons a r =>
    cases r with
    | nil => rfl
    | cons b r2 =>
      cases r2 with
      | nil => exact absurd rfl h
      | cons c r3 => rfl

/-- C9 witness: a one-date (transient widget state) range is a no-op. -/
theorem filtered_df_incomplete_range_witness :
    filtered_df [⟨2024, 1, 1⟩]
      [⟨1, ⟨2024, 1, 5⟩, "Expense", "Food", 5000, ""⟩]
      = [⟨1, ⟨2024, 1, 5⟩, "Expense", "Food", 5000, ""⟩] :=
  filtered_df_incomplete_range [⟨2024, 1, 1⟩]
    [⟨1, ⟨2024, 1, 5⟩, "Expense", "Food", 5000, ""⟩] (by decide)

/-- C6: summing the category breakdown over all returned categories
gives exactly the expense total, and a category appears iff some
expense row carries it. -/
theorem expense_by_cat_spec (txs : List Transaction) :
    ((expense_by_cat txs).map Prod.snd).sum = total_expense txs
    ∧ ∀ c, c ∈ (expense_by_cat txs).map Prod.fst
        ↔ ∃ t ∈ txs, t.kind = "Expense" ∧ t.category = c := by
  constructor
  · rw [expense_by_cat, groupSum_sum]
    rfl
  · intro c
    rw [expense_by_cat, groupSum_mem_keys]
    constructor
    · rintro ⟨t, ht, rfl⟩
      have hm := List.mem_filter.mp ht
      exact ⟨t, hm.1, by simpa using hm.2, rfl⟩
    · rintro ⟨t, ht, hk, rfl⟩
      exact ⟨t, List.mem_filter.mpr ⟨ht, by simp [hk]⟩, rfl⟩

/-- C7: monthly resampling buckets by calendar month: the bucket key of
a valid date is the last day of its month (a valid date, at or after
the date's own day), keys coincide exactly for dates in the same
calendar month, each row's value is the sum of the amounts of that
month and kind, and the spec's two-month scenario yields exactly two
monthly buckets, each summed correctly. -/
theorem monthly_buckets_spec :
    (∀ d : Date, ValidDate d →
      (monthEnd d).year = d.year ∧ (monthEnd d).month = d.month
        ∧ (monthEnd d).day = daysInMonth d.year d.month
        ∧ d.day ≤ (monthEnd d).day ∧ ValidDate (monthEnd d))
    ∧ (∀ d d' : Date, monthEnd d = monthEnd d'
        ↔ d.year = d'.year ∧ d.month = d'.month)
    ∧ (∀ txs : List Transaction, ∀ e ∈ resampled_df_monthly txs,
        e.2 = ((txs.filter (fun t => decide (t.date.year = e.1.1.year
          ∧ t.date.month = e.1.1.month ∧ t.kind = e.1.2))).map
          Transaction.amount).sum)
    ∧ resampled_df_monthly
        [⟨1, ⟨2024, 1, 5⟩, "Expense", "Food", 5000, ""⟩,
         ⟨2, ⟨2024, 1, 20⟩, "Expense", "Rent", 7000, ""⟩,
         ⟨3, ⟨2024, 2, 3⟩, "Expense", "Food", 2000, ""⟩]
      = [((⟨2024, 1, 31⟩, "Expense"), 12000),
         ((⟨2024, 2, 29⟩, "Expense"), 2000)] := by
  refine ⟨?_, monthEnd_inj, ?_, by decide⟩
  · intro d hd
    refine ⟨rfl, rfl, rfl, hd.2.2.2, ?_⟩
    exact ⟨hd.1, hd.2.1, daysInMonth_pos d.year d.month, le_refl _⟩
  · intro txs e he
    unfold resampled_df_monthly at he
    rw [groupSum_val _ _ e he]
    have hkey : e.1 ∈ (groupSum (fun t => (monthEnd t.date, t.kind)) txs).map
        Prod.fst := List.mem_map_of_mem Prod.fst he
    obtain ⟨t0, _, hk0⟩ := (groupSum_mem_keys _ _ _).mp hkey
    have hb : e.1.1 = monthEnd t0.date := (congrArg Prod.fst hk0).symm
    refine congrArg List.sum (congrArg (List.map Transaction.amount)
      (List.filter_congr ?_))
    intro t _
    refine decide_eq_decide.mpr ?_
    constructor
    · intro hpair
      have h1 : monthEnd t.date = e.1.1 := congrArg Prod.fst hpair
      have h2 : t.kind = e.1.2 := congrArg Prod.snd hpair
      refine ⟨?_, ?_, h2⟩
      · rw [← h1]
        rfl
      · rw [← h1]
        rfl
    · rintro ⟨hy, hm, hk⟩
      have h1 : monthEnd t.date = e.1.1 := by
        rw [hb] at hy hm ⊢
        exact (monthEnd_inj t.date t0.date).mpr ⟨hy, hm⟩
      exact Prod.ext h1 hk

/-- C7 witness: February 2024 ends on the 29th (a valid date), and the
January bucket row of a one-row frame carries that row's amount. -/
theorem monthly_buckets_spec_witness :
    ((monthEnd ⟨2024, 2, 3⟩).day = daysInMonth 2024 2
      ∧ ValidDate (monthEnd ⟨2024, 2, 3⟩))
    ∧ (((⟨2024, 1, 31⟩, "Expense"), (5000 : Int)) : (Date × String) × Int).2
        = ((([⟨1, ⟨2024, 1, 5⟩, "Expense", "Food", 5000, ""⟩] :
            List Transaction).filter
            (fun t => decide (t.date.year = (⟨2024, 1, 31⟩ : Date).year
              ∧ t.date.month = (⟨2024, 1, 31⟩ : Date).month
              ∧ t.kind = "Expense"))).map Transaction.amount).sum := by
  have h1 := monthly_buckets_spec.1 ⟨2024, 2, 3⟩ (by decide)
  have h3 := monthly_buckets_spec.2.2.1
    [⟨1, ⟨2024, 1, 5⟩, "Expense", "Food", 5000, ""⟩]
    ((⟨2024, 1, 31⟩, "Expense"), 5000) (by decide)
  exact ⟨⟨h1.2.2.1, h1.2.2.2.2⟩, h3⟩

/-- C8: for each of the three frequencies, resampling yields exactly
one row per (bucket, kind) pair occupied by some transaction: keys are
pairwise distinct, and a key appears iff a transaction of that kind
falls in that bucket — so no zero-filled counterpart rows and no rows
for empty buckets. -/
theorem resampled_rows_spec (txs : List Transaction) :
    (((resampled_df_daily txs).map Prod.fst).Nodup
      ∧ ∀ b k, (b, k) ∈ (resampled_df_daily txs).map Prod.fst
          ↔ ∃ t ∈ txs, t.date = b ∧ t.kind = k)
    ∧ (((resampled_df_weekly txs).map Prod.fst).Nodup
      ∧ ∀ b k, (b, k) ∈ (resampled_df_weekly txs).map Prod.fst
          ↔ ∃ t ∈ txs, weeklyKeyDays t.date.toDays = b ∧ t.kind = k)
    ∧ (((resampled_df_monthly txs).map Prod.fst).Nodup
      ∧ ∀ b k, (b, k) ∈ (resampled_df_monthly txs).map Prod.fst
          ↔ ∃ t ∈ txs, monthEnd t.date = b ∧ t.kind = k) := by
  refine ⟨⟨groupSum_nodup_keys _ _, ?_⟩, ⟨groupSum_nodup_keys _ _, ?_⟩,
    ⟨groupSum_nodup_keys _ _, ?_⟩⟩
  · intro b k
    unfold resampled_df_daily
    rw [groupSum_mem_keys]
    simp [Prod.mk.injEq]
  · intro b k
    unfold resampled_df_weekly
    rw [groupSum_mem_keys]
    simp [Prod.mk.injEq]
  · intro b k
    unfold resampled_df_monthly
    rw [groupSum_mem_keys]
    simp [Prod.mk.injEq]

/-- C10: weekly resampling keys are, in days since 1970-01-01 (day 0;
day 3, 1970-01-04, is a Sunday), exactly the first Sunday on or after
the transaction's date: the key is a Sunday, lies within the seven days
starting at the date, every date up to that Sunday shares it (weeks run
Monday through Sunday), and each transaction's bucket key is that
Sunday. -/
theorem weekly_buckets_spec :
    (Date.toDays ⟨1970, 1, 1⟩ = 0 ∧ Date.toDays ⟨1970, 1, 4⟩ = 3)
    ∧ (∀ n : Int, weeklyKeyDays n % 7 = 3
        ∧ n ≤ weeklyKeyDays n ∧ weeklyKeyDays n < n + 7)
    ∧ (∀ n m : Int, n ≤ m → m ≤ weeklyKeyDays n
        → weeklyKeyDays m = weeklyKeyDays n)
    ∧ (∀ txs : List Transaction, ∀ t ∈ txs,
        (weeklyKeyDays t.date.toDays, t.kind)
          ∈ (resampled_df_weekly txs).map Prod.fst) := by
  refine ⟨⟨by decide, by decide⟩, ?_, ?_, ?_⟩
  · intro n
    unfold weeklyKeyDays
    omega
  · intro n m h1 h2
    unfold weeklyKeyDays at h2 ⊢
    omega
  · intro txs t ht
    unfold resampled_df_weekly
    rw [groupSum_mem_keys]
    exact ⟨t, ht, rfl⟩

/-- C10 witness: a Tuesday shares its bucket with the preceding Monday,
and a concrete transaction's bucket key appears among the rows. -/
theorem weekly_buckets_spec_witness :
    weeklyKeyDays 5 = weeklyKeyDays 4
    ∧ (weeklyKeyDays (Date.toDays ⟨2024, 1, 5⟩), "Expense")
        ∈ (resampled_df_weekly
            [⟨1, ⟨2024, 1, 5⟩, "Expense", "Food", 5000, ""⟩]).map Prod.fst :=
  ⟨weekly_buckets_spec.2.2.1 4 5 (by decide) (by decide),
   weekly_buckets_spec.2.2.2 _ _ (List.mem_singleton_self _)⟩
